import Mathlib

/-! # coolstreambot: webhook verification and reward dispatch

A shallow embedding of `twitch.go` (package `main`) and a verification of its
specification.

Conventions of the embedding.

* A Go `string` and a Go `[]byte` are both finite byte sequences: `GoString`.
  String literals of the source are written `str "..."`, the UTF-8 bytes of the
  literal.
* `http.Header` is a finite map from header names to value lists; it is embedded
  as a function into `Option`.
* Calls into libraries whose result is not determined by the source (the keyed
  hash of `crypto/hmac`, the decoder of `encoding/json`, `math/rand`, the process
  environment) are fields of `Env`.  Library functions whose result is determined
  (`encoding/hex`, `strings.SplitN`, `strconv`, `hash/crc32`, the rune iteration of
  `fmt`) are embedded as Lean functions of the same name.
* Logging is not embedded.
-/

namespace Twitch

/-! ## Bytes and strings -/

/-- A byte (`uint8`). -/
abbrev Byte := Fin 256

/-- A Go `string` or `[]byte`: a finite sequence of bytes. -/
abbrev GoString := List Byte

/-- The conversion `byte(n)`: the low eight bits. -/
def byte (n : Nat) : Byte := ⟨n % 256, Nat.mod_lt _ (by decide)⟩

/-- UTF-8 encoding of one Unicode scalar value. -/
def utf8EncodeChar (c : Char) : GoString :=
  let v := c.toNat
  if v < 0x80 then [byte v]
  else if v < 0x800 then [byte (0xC0 + v / 64), byte (0x80 + v % 64)]
  else if v < 0x10000 then
    [byte (0xE0 + v / 4096), byte (0x80 + v / 64 % 64), byte (0x80 + v % 64)]
  else
    [byte (0xF0 + v / 262144), byte (0x80 + v / 4096 % 64),
      byte (0x80 + v / 64 % 64), byte (0x80 + v % 64)]

/-- UTF-8 encoding of a list of characters. -/
def utf8Encode : List Char → GoString
  | [] => []
  | c :: cs => utf8EncodeChar c ++ utf8Encode cs

/-- The bytes of a string literal of the source (Go source text is UTF-8). -/
def str (s : String) : GoString := utf8Encode s.data

/-! ## `encoding/hex` -/

/-- The table `hextable` of `encoding/hex`. -/
def hextable : GoString := str "0123456789abcdef"

/-- Go `hex.EncodeToString`: two lower-case digits per byte, high nibble first. -/
def EncodeToString : GoString → GoString
  | [] => []
  | v :: rest =>
    hextable.getD (v.val >>> 4) 0 :: hextable.getD (v.val &&& 0x0f) 0 :: EncodeToString rest

/-- Upper-case variant of `EncodeToString` (table `0123456789ABCDEF`). -/
def EncodeToStringUpper : GoString → GoString
  | [] => []
  | v :: rest =>
    (str "0123456789ABCDEF").getD (v.val >>> 4) 0 ::
      (str "0123456789ABCDEF").getD (v.val &&& 0x0f) 0 :: EncodeToStringUpper rest

/-- Go `fromHexChar`: the value of one hexadecimal digit, either case. -/
def fromHexChar (c : Byte) : Option Nat :=
  if 0x30 ≤ c.val ∧ c.val ≤ 0x39 then some (c.val - 0x30)
  else if 0x61 ≤ c.val ∧ c.val ≤ 0x66 then some (c.val - 0x61 + 10)
  else if 0x41 ≤ c.val ∧ c.val ≤ 0x46 then some (c.val - 0x41 + 10)
  else none

/-- Go `hex.DecodeString`: `none` stands for either error (`InvalidByteError`,
`ErrLength`); the caller only tests `err != nil`. -/
def DecodeString : GoString → Option GoString
  | [] => some []
  | [_] => none
  | p :: q :: rest =>
    match fromHexChar p, fromHexChar q with
    | some a, some b =>
      match DecodeString rest with
      | some t => some (byte ((a <<< 4) ||| b) :: t)
      | none => none
    | _, _ => none

/-! ## `strings.SplitN(s, "=", 2)` -/

/-- The byte `=`. -/
def eqSign : Byte := 0x3d

/-- Cut `s` around its first `=`: `none` when `s` has no `=`. -/
def cutEq : GoString → Option (GoString × GoString)
  | [] => none
  | c :: cs =>
    if c = eqSign then some ([], cs)
    else
      match cutEq cs with
      | some (a, b) => some (c :: a, b)
      | none => none

/-- Go `strings.SplitN(s, "=", 2)`: `[s]` when `s` has no `=`, else the text before
the first `=` and the text after it. -/
def SplitN (s : GoString) : List GoString :=
  match cutEq s with
  | none => [s]
  | some (a, b) => [a, b]

/-! ## Requests -/

/-- The part of `*http.Request` the handler reads: the header map, and the result of
`ioutil.ReadAll(r.Body)` (`none` when reading fails). -/
structure Request where
  Header : GoString → Option (List GoString)
  Body : Option GoString

/-- The two errors of `getCoolHeader`. -/
inductive HeaderError
  | missing
  | tooMany
deriving DecidableEq, Repr

/-- Go `getCoolHeader`. -/
def getCoolHeader (name : GoString) (r : Request) : Except HeaderError GoString :=
  match r.Header name with
  | none => .error .missing
  | some val =>
    match val with
    | [v] => .ok v
    | _ => .error .tooMany

/-! ## `verifyWebhook` -/

/-- The hash constructors `verifyWebhook` selects from. -/
inductive Hasher
  | sha1_New
  | sha256_New
  | sha512_New384
  | sha512_New
deriving DecidableEq, Repr

/-- The name of the algorithm a hash constructor is selected by. -/
def Hasher.method : Hasher → GoString
  | .sha1_New => str "sha1"
  | .sha256_New => str "sha256"
  | .sha512_New384 => str "sha384"
  | .sha512_New => str "sha512"

/-- The `switch method` of `verifyWebhook`; `none` is the `default` case. -/
def selectHasher (method : GoString) : Option Hasher :=
  if method = str "sha1" then some .sha1_New
  else if method = str "sha256" then some .sha256_New
  else if method = str "sha384" then some .sha512_New384
  else if method = str "sha512" then some .sha512_New
  else none

/-- A keyed hash: `hmacSum h key msg` is `Sum(nil)` of `hmac.New(h, key)` after `msg`
has been written to it (in any number of `Write` calls). -/
abbrev HMAC := Hasher → GoString → GoString → GoString

/-- The loop over `hmacKeys` of `verifyWebhook`; `hmac.Equal` is equality of byte
sequences. -/
def tryKeys (hmacSum : HMAC) (hasher : Hasher) (msg signature : GoString) :
    List GoString → Bool
  | [] => false
  | hmacKey :: rest =>
    if hmacSum hasher hmacKey msg = signature then true
    else tryKeys hmacSum hasher msg signature rest

/-- Go `verifyWebhook`. -/
def verifyWebhook (hmacSum : HMAC) (r : Request) (requestBody : GoString)
    (hmacKeys : List GoString) : Bool :=
  match getCoolHeader (str "Twitch-Eventsub-Message-Signature") r with
  | .error _ => false
  | .ok signatures =>
    match SplitN signatures with
    | [method, hexSignature] =>
      match DecodeString hexSignature with
      | none => false
      | some signature =>
        match selectHasher method with
        | none => false
        | some hasher =>
          match getCoolHeader (str "Twitch-Eventsub-Message-Timestamp") r with
          | .error _ => false
          | .ok timestamp =>
            match getCoolHeader (str "Twitch-Eventsub-Message-Id") r with
            | .error _ => false
            | .ok msgId =>
              tryKeys hmacSum hasher (msgId ++ timestamp ++ requestBody) signature hmacKeys
    | _ => false

/-! ## `strconv` -/

/-- The errors of `strconv.ParseUint`: `strconv.ErrSyntax` and `strconv.ErrRange`. -/
inductive NumError
  | invalid
  | outOfRange
deriving DecidableEq, Repr

/-- Go `maxUint64`. -/
def maxUint64 : Nat := 2 ^ 64 - 1

/-- The digit loop of `strconv.ParseUint(s, 10, 64)`: `n` is the `uint64` accumulator,
`cutoff = maxUint64/10 + 1`, `maxVal = 1<<64 - 1`; `lower(c) = c | 0x20`. -/
def parseUintLoop (n : Nat) : GoString → Except NumError Nat
  | [] => .ok n
  | c :: rest =>
    let digit : Option Nat :=
      if 0x30 ≤ c.val ∧ c.val ≤ 0x39 then some (c.val - 0x30)
      else if 0x61 ≤ (c.val ||| 0x20) ∧ (c.val ||| 0x20) ≤ 0x7a then
        some ((c.val ||| 0x20) - 0x61 + 10)
      else none
    match digit with
    | none => .error .invalid
    | some d =>
      if d ≥ 10 then .error .invalid
      else if n ≥ maxUint64 / 10 + 1 then .error .outOfRange
      else
        let n10 := (n * 10) % 2 ^ 64
        let n1 := (n10 + d) % 2 ^ 64
        if n1 < n10 ∨ n1 > maxUint64 then .error .outOfRange
        else parseUintLoop n1 rest

/-- Go `strconv.ParseUint(s, 10, 64)`. -/
def ParseUint (s : GoString) : Except NumError Nat :=
  if s = [] then .error .invalid else parseUintLoop 0 s

/-- Go `strconv.FormatUint(n, 10)`. -/
def FormatUint (n : Nat) : GoString := utf8Encode (Nat.toDigits 10 n)

/-! ## `hash/crc32` -/

/-- Go `crc32.IEEE`, the reversed polynomial. -/
def IEEE : Nat := 0xedb88320

/-- One of the eight steps of `simpleMakeTable` for a table entry. -/
def tableStep (crc : Nat) : Nat :=
  if crc &&& 1 = 1 then (crc >>> 1) ^^^ IEEE else crc >>> 1

/-- Entry `i` of `crc32.IEEETable`. -/
def tableEntry (i : Nat) : Nat :=
  tableStep (tableStep (tableStep (tableStep (tableStep (tableStep (tableStep (tableStep i)))))))

/-- The loop of `simpleUpdate`: `crc = tab[byte(crc)^v] ^ (crc >> 8)` for each byte. -/
def updateLoop (crc : Nat) : GoString → Nat
  | [] => crc
  | v :: rest => updateLoop (tableEntry ((crc % 256) ^^^ v.val) ^^^ (crc >>> 8)) rest

/-- Go `crc32` update on the IEEE table: complement, loop, complement (32 bits). -/
def simpleUpdate (crc : Nat) (p : GoString) : Nat :=
  updateLoop (crc ^^^ 0xFFFFFFFF) p ^^^ 0xFFFFFFFF

/-- `Sum32` of `crc32.NewIEEE()` after `Write(p)`. -/
def ChecksumIEEE (p : GoString) : Nat := simpleUpdate 0 p

/-! ## Rune iteration and `fmt` -/

/-- A UTF-8 continuation byte (`locb ≤ b ≤ hicb`). -/
def isCont (b : Byte) : Bool := 0x80 ≤ b.val && b.val ≤ 0xBF

/-- The number of bytes by which a `range` loop over a string advances at the head of
`s`: the width `utf8.DecodeRuneInString` reports, which is 1 for every byte that does
not start a well-formed sequence. -/
def runeWidth : GoString → Nat
  | [] => 0
  | s0 :: t =>
    if s0.val < 0xC2 then 1
    else if s0.val ≤ 0xDF then
      match t with
      | s1 :: _ => if isCont s1 then 2 else 1
      | _ => 1
    else if s0.val ≤ 0xEF then
      match t with
      | s1 :: s2 :: _ =>
        if (if s0.val = 0xE0 then 0xA0 else 0x80) ≤ s1.val ∧
            s1.val ≤ (if s0.val = 0xED then 0x9F else 0xBF) ∧ isCont s2 then 3
        else 1
      | _ => 1
    else if s0.val ≤ 0xF4 then
      match t with
      | s1 :: s2 :: s3 :: _ =>
        if (if s0.val = 0xF0 then 0x90 else 0x80) ≤ s1.val ∧
            s1.val ≤ (if s0.val = 0xF4 then 0x8F else 0xBF) ∧ isCont s2 ∧ isCont s3 then 4
        else 1
      | _ => 1
    else 1

/-- The loop of `fmt`'s `truncateString`: `n` runes may still be kept, `skip` bytes of
the rune being copied remain.  At the start of a rune with `n = 0` the loop returns the
text before it. -/
def truncateLoop : Nat → Nat → GoString → GoString
  | _, _, [] => []
  | n, skip + 1, b :: t => b :: truncateLoop n skip t
  | 0, 0, _ :: _ => []
  | n + 1, 0, b :: t => b :: truncateLoop n (runeWidth (b :: t) - 1) t

/-- The `truncateString` of package `fmt` with precision `prec`: the first `prec` runes
of `s`. -/
def truncateString (s : GoString) (prec : Nat) : GoString := truncateLoop prec 0 s

/-- The number of runes a `range` loop over `s` visits (`skip` as in `truncateLoop`). -/
def runeCountLoop : Nat → GoString → Nat
  | _, [] => 0
  | skip + 1, _ :: t => runeCountLoop skip t
  | 0, b :: t => 1 + runeCountLoop (runeWidth (b :: t) - 1) t

/-- Go `utf8.RuneCountInString`. -/
def RuneCountInString (s : GoString) : Nat := runeCountLoop 0 s

/-- Go `fmt.Sprintf(" %.256s ✨✨✨ ", params)`. -/
def scrolloText (params : GoString) : GoString :=
  str " " ++ truncateString params 256 ++ str " ✨✨✨ "

/-! ## The filesystem -/

/-- The state of the filesystem as far as the program names it.  `names` are the
directory entries (hard links) from paths to inode numbers, `data` the content of each
inode, `next` the number the next created inode gets, and `cacheDir` tells whether the
directory `.scrollocache` exists.  Only the errors that this state determines are
embedded (`ENOENT`, `EEXIST`). -/
structure FS where
  cacheDir : Bool
  names : GoString → Option Nat
  data : Nat → GoString
  next : Nat

/-- Whether `os.Stat(path)` succeeds; when it does not, `os.IsNotExist(err)` holds. -/
def FS.Stat (fs : FS) (path : GoString) : Bool := (fs.names path).isSome

/-- The content read through `path`, if `path` names a file. -/
def FS.ReadFile (fs : FS) (path : GoString) : Option GoString :=
  match fs.names path with
  | some i => some (fs.data i)
  | none => none

/-- Go `os.Create(path)` for a path directly inside `.scrollocache`
(`O_RDWR|O_CREATE|O_TRUNC`): fails when the directory is missing, truncates an existing
file, otherwise makes a new empty inode.  Returns the new state and the inode the file
handle refers to. -/
def FS.Create (fs : FS) (path : GoString) : Option (FS × Nat) :=
  if fs.cacheDir then
    match fs.names path with
    | some i => some ({ fs with data := fun j => if j = i then [] else fs.data j }, i)
    | none =>
      some ({ fs with
              names := fun p => if p = path then some fs.next else fs.names p
              data := fun j => if j = fs.next then [] else fs.data j
              next := fs.next + 1 }, fs.next)
  else none

/-- Go `f.WriteString(s)` on a handle whose offset is the end of the file, as after
`os.Create`. -/
def FS.WriteString (fs : FS) (f : Nat) (s : GoString) : FS :=
  { fs with data := fun j => if j = f then fs.data f ++ s else fs.data j }

/-- Go `os.Link(oldname, newname)` with `newname` in the working directory: fails when
`oldname` does not exist and when `newname` already exists; otherwise `newname`
becomes another name of the inode of `oldname`. -/
def FS.Link (fs : FS) (oldname newname : GoString) : Option FS :=
  match fs.names oldname with
  | none => none
  | some i =>
    match fs.names newname with
    | some _ => none
    | none => some { fs with names := fun p => if p = newname then some i else fs.names p }

/-- The package variable `obsScrolloFile`. -/
def obsScrolloFile : GoString := str "scrollo.txt"

/-- Go `filepath.Join(".scrollocache/", scrolloHash)` for the decimal string
`scrolloHash`: `Clean` leaves one separator. -/
def scrolloFilePath (scrolloHash : GoString) : GoString := str ".scrollocache/" ++ scrolloHash

/-! ## `handleWebhook` -/

/-- Go `RewardJson`. -/
structure RewardJson where
  Title : GoString

/-- Go `EventJson`. -/
structure EventJson where
  UserInput : GoString
  Reward : RewardJson

/-- Go `PayloadJson`. -/
structure PayloadJson where
  Challenge : GoString
  Event : EventJson

/-- Go `golifx.HSBK`, four `uint16` fields. -/
structure HSBK where
  Hue : Nat
  Saturation : Nat
  Brightness : Nat
  Kelvin : Nat
deriving DecidableEq, Repr

/-- The two package variables of type `*golifx.Bulb`. -/
inductive Bulb
  | bedBulb
  | ceilingBulb
deriving DecidableEq, Repr

/-- The calls the handler makes to its collaborators: `bulb.SetColorState(col, d)`, and
`cmd.Run` of `exec.Command(name, args...)` with `appendEnv` appended to the inherited
environment. -/
inductive Effect
  | SetColorState (bulb : Bulb) (col : HSBK) (duration : Nat)
  | Run (name : GoString) (args : List GoString) (appendEnv : List GoString)
deriving DecidableEq, Repr

/-- What the handler reads from outside the request and the filesystem. -/
structure Env where
  hmacSum : HMAC
  dom_secret : GoString
  sub_secret : GoString
  jsonDecode : GoString → Option PayloadJson
  chance : Nat

/-- What one run of the handler does: the bytes written to the response, the calls to
collaborators in order, the filesystem it leaves, and whether it stopped on a run-time
fault (index out of range). -/
structure Outcome where
  body : GoString
  effects : List Effect
  fs : FS
  fault : Bool

/-- The number the `lights` branch derives from `params`. -/
def lightsNumber (params : GoString) : Nat :=
  match ParseUint params with
  | .ok number => number
  | .error _ => ChecksumIEEE params

/-- The `lights` branch of `handleWebhook`. -/
def lights (fs : FS) (params : GoString) : Outcome :=
  let number := lightsNumber params
  let whichBulb := (number / 65535) % 2
  match [Bulb.bedBulb, Bulb.ceilingBulb].get? whichBulb with
  | none => { body := [], effects := [], fs := fs, fault := true }
  | some bulb =>
    let hue := number % 65535
    let col : HSBK :=
      { Hue := hue % 2 ^ 16, Saturation := 65535, Brightness := 65535, Kelvin := 3200 }
    { body := [], effects := [.SetColorState bulb col 1], fs := fs, fault := false }

/-- The final `os.Link(scrolloFile, obsScrolloFile)` of the `scrollo` branch; on error
the handler logs and returns. -/
def scrolloLink (fs : FS) (scrolloFile : GoString) : FS :=
  match fs.Link scrolloFile obsScrolloFile with
  | none => fs
  | some fs1 => fs1

/-- The `scrollo` branch of `handleWebhook`, as a function of the filesystem. -/
def scrollo (fs : FS) (params : GoString) : FS :=
  let scrolloHash := FormatUint (ChecksumIEEE params)
  let scrolloFile := scrolloFilePath scrolloHash
  if fs.Stat scrolloFile then scrolloLink fs scrolloFile
  else
    match fs.Create scrolloFile with
    | none => fs
    | some (fs1, f) => scrolloLink (fs1.WriteString f (scrolloText params)) scrolloFile

/-- Go `handleWebhook`. -/
def handleWebhook (env : Env) (fs : FS) (r : Request) : Outcome :=
  let quiet : Outcome := { body := [], effects := [], fs := fs, fault := false }
  match r.Body with
  | none => quiet
  | some requestBody =>
    let hmacKeys := [env.dom_secret, env.sub_secret]
    if !verifyWebhook env.hmacSum r requestBody hmacKeys then
      { quiet with body := str "you're my good puppy\n" }
    else
      match getCoolHeader (str "Twitch-Eventsub-Message-Type") r with
      | .error _ => quiet
      | .ok msgType =>
        match env.jsonDecode requestBody with
        | none => quiet
        | some payload =>
          if msgType = str "webhook_callback_verification" then
            { quiet with body := payload.Challenge }
          else if msgType = str "notification" then
            let reward := payload.Event.Reward.Title
            let params := payload.Event.UserInput
            if reward = str "lights" then lights fs params
            else if reward = str "end the stream" then
              { quiet with effects := [.Run (str "killall") [str "obs"] []] }
            else if reward = str "silence me" then
              { quiet with effects := [.Run (str "./silencethot.sh") [] []] }
            else if reward = str "SimpBucks Premium" then
              let sound := if env.chance = 5 then str "bark.mp3" else str "woof.mp3"
              { quiet with effects := [.Run (str "play") [sound] [str "AUDIODEV=hw:1,0"]] }
            else if reward = str "scrollo" then
              { quiet with fs := scrollo fs params }
            else quiet
          else quiet

/-! ## Notions of the specification -/

/-- The cache path of the `scrollo` branch for `params`: the value of `scrolloFile`. -/
def cachePath (params : GoString) : GoString :=
  scrolloFilePath (FormatUint (ChecksumIEEE params))

/-- A decimal digit `0` to `9`. -/
def isDigit (c : Byte) : Bool := 0x30 ≤ c.val && c.val ≤ 0x39

/-- The specification's numeric string: one or more decimal digits. -/
def isNumeric (s : GoString) : Bool := !s.isEmpty && s.all isDigit

/-- The unsigned integer that the digits `s` denote, continuing from the value `n` of
the digits already read. -/
def decimalFrom (n : Nat) : GoString → Nat
  | [] => n
  | c :: rest => decimalFrom (n * 10 + (c.val - 0x30)) rest

/-- The unsigned integer that the decimal digits `s` denote. -/
def decimalValue (s : GoString) : Nat := decimalFrom 0 s

/-! ## Concrete data for the examples -/

/-- A stand-in keyed hash for concrete examples: the key followed by the message. -/
def toyHMAC : HMAC := fun _ key msg => key ++ msg

/-- A filesystem with an empty `.scrollocache` and no `scrollo.txt`. -/
def emptyFS : FS :=
  { cacheDir := true, names := fun _ => none, data := fun _ => [], next := 0 }

/-- A filesystem without the directory `.scrollocache` and without any file. -/
def noDirFS : FS :=
  { cacheDir := false, names := fun _ => none, data := fun _ => [], next := 0 }

/-- A request signed the way the sender signs it: method `sha256`, key `key`, message id
`id1`, timestamp `ts1`, one value for each header. -/
def signedRequest (hmacSum : HMAC) (key msgType body : GoString) : Request :=
  { Header := fun name =>
      if name = str "Twitch-Eventsub-Message-Signature" then
        some [str "sha256=" ++
          EncodeToString (hmacSum .sha256_New key (str "id1" ++ str "ts1" ++ body))]
      else if name = str "Twitch-Eventsub-Message-Timestamp" then some [str "ts1"]
      else if name = str "Twitch-Eventsub-Message-Id" then some [str "id1"]
      else if name = str "Twitch-Eventsub-Message-Type" then some [msgType]
      else none
    Body := some body }

/-- An environment for concrete examples: the stand-in keyed hash, two secrets, and a
decoder that yields `payload` for every body. -/
def toyEnv (payload : PayloadJson) (chance : Nat) : Env :=
  { hmacSum := toyHMAC
    dom_secret := str "dom"
    sub_secret := str "sub"
    jsonDecode := fun _ => some payload
    chance := chance }

/-- A request without any header. -/
def bareRequest : Request := { Header := fun _ => none, Body := some [] }

/-- The filesystem a verified `scrollo` delivery with `user_input` equal to `text`
leaves, starting from `fs`. -/
def scrolloDelivery (text : GoString) (fs : FS) : FS :=
  (handleWebhook (toyEnv ⟨[], ⟨text, ⟨str "scrollo"⟩⟩⟩ 0) fs
    (signedRequest toyHMAC (str "sub") (str "notification") (str "body"))).fs

/-! ## Lemmas: hex, splitting, the key loop -/

theorem cutEq_append (m h : GoString) (hm : eqSign ∉ m) :
    cutEq (m ++ eqSign :: h) = some (m, h) := by
  induction m with
  | nil => simp [cutEq]
  | cons c cs ih =>
    have hc : c ≠ eqSign := fun e => hm (by simp [e])
    have hcs : eqSign ∉ cs := fun e => hm (by simp [e])
    simp [cutEq, hc, ih hcs]

theorem cutEq_some (s a b : GoString) (h : cutEq s = some (a, b)) :
    s = a ++ eqSign :: b ∧ eqSign ∉ a := by
  induction s generalizing a with
  | nil => simp [cutEq] at h
  | cons c cs ih =>
    unfold cutEq at h
    split at h
    · rename_i hc
      simp only [Option.some.injEq, Prod.mk.injEq] at h
      obtain ⟨rfl, rfl⟩ := h
      simp [hc]
    · rename_i hc
      split at h
      · rename_i a1 b1 h1
        simp only [Option.some.injEq, Prod.mk.injEq] at h
        obtain ⟨rfl, rfl⟩ := h
        obtain ⟨e, hn⟩ := ih a1 h1
        refine ⟨by rw [e]; simp, ?_⟩
        simp only [List.mem_cons, not_or]
        exact ⟨fun e => hc e.symm, hn⟩
      · simp at h

theorem SplitN_eq_pair (s method hexSignature : GoString) :
    SplitN s = [method, hexSignature] ↔
      s = method ++ eqSign :: hexSignature ∧ eqSign ∉ method := by
  unfold SplitN
  constructor
  · intro h
    split at h
    · simp at h
    · rename_i a b hab
      simp only [List.cons.injEq, and_true] at h
      obtain ⟨rfl, rfl⟩ := h
      exact cutEq_some s a b hab
  · rintro ⟨rfl, hm⟩
    rw [cutEq_append _ _ hm]

set_option maxRecDepth 100000 in
theorem decode_encode_byte : ∀ v : Byte,
    fromHexChar (hextable.getD (v.val >>> 4) 0) = some (v.val >>> 4) ∧
    fromHexChar (hextable.getD (v.val &&& 0x0f) 0) = some (v.val &&& 0x0f) ∧
    (byte (((v.val >>> 4) <<< 4) ||| (v.val &&& 0x0f))) = v := by
  decide!

set_option maxRecDepth 100000 in
theorem decode_encodeUpper_byte : ∀ v : Byte,
    fromHexChar ((str "0123456789ABCDEF").getD (v.val >>> 4) 0) = some (v.val >>> 4) ∧
    fromHexChar ((str "0123456789ABCDEF").getD (v.val &&& 0x0f) 0) = some (v.val &&& 0x0f) := by
  decide!

theorem DecodeString_EncodeToString (d : GoString) :
    DecodeString (EncodeToString d) = some d := by
  induction d with
  | nil => rfl
  | cons v rest ih =>
    obtain ⟨h1, h2, h3⟩ := decode_encode_byte v
    simp only [EncodeToString, DecodeString, h1, h2, ih, h3]

theorem DecodeString_EncodeToStringUpper (d : GoString) :
    DecodeString (EncodeToStringUpper d) = some d := by
  induction d with
  | nil => rfl
  | cons v rest ih =>
    obtain ⟨h1, h2⟩ := decode_encodeUpper_byte v
    obtain ⟨_, _, h3⟩ := decode_encode_byte v
    simp only [EncodeToStringUpper, DecodeString, h1, h2, ih, h3]

theorem selectHasher_method (h : Hasher) : selectHasher h.method = some h := by
  cases h <;> decide

theorem selectHasher_some (method : GoString) (h : Hasher)
    (e : selectHasher method = some h) : method = h.method := by
  unfold selectHasher at e
  split at e
  · cases e; assumption
  · split at e
    · cases e; assumption
    · split at e
      · cases e; assumption
      · split at e
        · cases e; assumption
        · cases e

theorem eqSign_not_mem_method (h : Hasher) : eqSign ∉ h.method := by
  cases h <;> decide

theorem tryKeys_eq_true (hmacSum : HMAC) (hasher : Hasher) (msg signature : GoString)
    (hmacKeys : List GoString) :
    tryKeys hmacSum hasher msg signature hmacKeys = true ↔
      ∃ k ∈ hmacKeys, hmacSum hasher k msg = signature := by
  induction hmacKeys with
  | nil => simp [tryKeys]
  | cons k rest ih =>
    unfold tryKeys
    by_cases hk : hmacSum hasher k msg = signature
    · simp [hk]
    · simp [hk, ih]

theorem getCoolHeader_ok (name : GoString) (r : Request) (v : GoString) :
    getCoolHeader name r = .ok v ↔ r.Header name = some [v] := by
  unfold getCoolHeader
  constructor
  · intro h
    split at h
    · cases h
    · rename_i val hval
      split at h
      · cases h; exact hval
      · cases h
  · intro h
    rw [h]


theorem verifyWebhook_eq_true_iff (hmacSum : HMAC) (r : Request) (requestBody : GoString)
    (hmacKeys : List GoString) :
    verifyWebhook hmacSum r requestBody hmacKeys = true ↔
      ∃ hasher hexSignature signature timestamp msgId,
        r.Header (str "Twitch-Eventsub-Message-Signature")
          = some [hasher.method ++ str "=" ++ hexSignature] ∧
        r.Header (str "Twitch-Eventsub-Message-Timestamp") = some [timestamp] ∧
        r.Header (str "Twitch-Eventsub-Message-Id") = some [msgId] ∧
        DecodeString hexSignature = some signature ∧
        ∃ k ∈ hmacKeys, hmacSum hasher k (msgId ++ timestamp ++ requestBody) = signature := by
  have hstr : str "=" = [eqSign] := by decide
  constructor
  · intro h
    unfold verifyWebhook at h
    split at h
    · cases h
    · rename_i signatures hsig
      split at h
      · rename_i method hexSignature hsplit
        split at h
        · cases h
        · rename_i signature hdec
          split at h
          · cases h
          · rename_i hasher hsel
            split at h
            · cases h
            · rename_i timestamp hts
              split at h
              · cases h
              · rename_i msgId hid
                obtain ⟨e, -⟩ := (SplitN_eq_pair _ _ _).1 hsplit
                refine ⟨hasher, hexSignature, signature, timestamp, msgId, ?_,
                  (getCoolHeader_ok _ _ _).1 hts, (getCoolHeader_ok _ _ _).1 hid, hdec,
                  (tryKeys_eq_true _ _ _ _ _).1 h⟩
                rw [(getCoolHeader_ok _ _ _).1 hsig, e, selectHasher_some _ _ hsel, hstr]
                simp
      · cases h
  · rintro ⟨hasher, hexSignature, signature, timestamp, msgId, hsig, hts, hid, hdec, hk⟩
    have hsplit : SplitN (hasher.method ++ str "=" ++ hexSignature)
        = [hasher.method, hexSignature] := by
      rw [SplitN_eq_pair]
      exact ⟨by rw [hstr]; simp, eqSign_not_mem_method hasher⟩
    unfold verifyWebhook
    rw [(getCoolHeader_ok _ _ _).2 hsig]
    simp only [hsplit, hdec, selectHasher_method, (getCoolHeader_ok _ _ _).2 hts,
      (getCoolHeader_ok _ _ _).2 hid]
    exact (tryKeys_eq_true _ _ _ _ _).2 hk


theorem signature_header_inj (h1 h2 : Hasher) (x1 x2 : GoString)
    (e : h1.method ++ str "=" ++ x1 = h2.method ++ str "=" ++ x2) : h1 = h2 ∧ x1 = x2 := by
  have hstr : str "=" = [eqSign] := by decide
  have s1 : SplitN (h1.method ++ str "=" ++ x1) = [h1.method, x1] :=
    (SplitN_eq_pair _ _ _).2 ⟨by rw [hstr]; simp, eqSign_not_mem_method h1⟩
  have s2 : SplitN (h2.method ++ str "=" ++ x2) = [h2.method, x2] :=
    (SplitN_eq_pair _ _ _).2 ⟨by rw [hstr]; simp, eqSign_not_mem_method h2⟩
  rw [e, s2] at s1
  simp only [List.cons.injEq, and_true] at s1
  obtain ⟨hm, hx⟩ := s1
  refine ⟨?_, hx.symm⟩
  have := selectHasher_method h1
  rw [← hm, selectHasher_method] at this
  exact (Option.some.inj this).symm

/-! ## The claims on `verifyWebhook` -/

/-- C1: for every candidate-secret list, every secret `k` of the list, each of the four
algorithm names, and every message id, timestamp and body: when the request carries
exactly one value for each of the signature, timestamp and id headers and the signature
header is the algorithm name, `=`, and the hexadecimal text (lower or upper case) of the
keyed hash under `k` of id, timestamp and body concatenated, `verifyWebhook` returns
true. -/
theorem verifyWebhook_accepts_correct_signature (hmacSum : HMAC) (r : Request)
    (hmacKeys : List GoString) (k : GoString) (hasher : Hasher)
    (msgId timestamp requestBody hexSignature : GoString)
    (hk : k ∈ hmacKeys)
    (hhex : hexSignature = EncodeToString (hmacSum hasher k (msgId ++ timestamp ++ requestBody))
      ∨ hexSignature =
        EncodeToStringUpper (hmacSum hasher k (msgId ++ timestamp ++ requestBody)))
    (hsig : r.Header (str "Twitch-Eventsub-Message-Signature")
      = some [hasher.method ++ str "=" ++ hexSignature])
    (hts : r.Header (str "Twitch-Eventsub-Message-Timestamp") = some [timestamp])
    (hid : r.Header (str "Twitch-Eventsub-Message-Id") = some [msgId]) :
    verifyWebhook hmacSum r requestBody hmacKeys = true := by
  rw [verifyWebhook_eq_true_iff]
  refine ⟨hasher, hexSignature, _, timestamp, msgId, hsig, hts, hid, ?_, k, hk, rfl⟩
  rcases hhex with e | e
  · rw [e, DecodeString_EncodeToString]
  · rw [e, DecodeString_EncodeToStringUpper]

set_option maxRecDepth 100000 in
/-- C1 at a concrete request: signed with the second of two secrets. -/
theorem verifyWebhook_accepts_correct_signature_witness :
    str "sub" ∈ [str "dom", str "sub"] ∧
    verifyWebhook toyHMAC (signedRequest toyHMAC (str "sub") (str "notification") (str "body"))
      (str "body") [str "dom", str "sub"] = true :=
  ⟨by decide!,
   verifyWebhook_accepts_correct_signature toyHMAC
    (signedRequest toyHMAC (str "sub") (str "notification") (str "body"))
    [str "dom", str "sub"] (str "sub") .sha256_New (str "id1") (str "ts1") (str "body")
    (EncodeToString (toyHMAC .sha256_New (str "sub") (str "id1" ++ str "ts1" ++ str "body")))
    (by decide!) (Or.inl rfl) (by decide!) (by decide!) (by decide!)⟩

/-- C2: `verifyWebhook` is a total function into the booleans, and it returns true
exactly when each of the signature, timestamp and id headers has exactly one value, the
signature header is one of the four algorithm names followed by `=` and valid
hexadecimal text, and some secret of the candidate list has a keyed hash of id,
timestamp and body equal to the decoded digest.  Hence it returns false when one of the
three headers is missing or has not exactly one value, when the signature is malformed
or names an unknown algorithm, when the candidate list is empty, and when the digest
equals no candidate's keyed hash of the request. -/
theorem verifyWebhook_true_only_if (hmacSum : HMAC) (r : Request) (requestBody : GoString)
    (hmacKeys : List GoString) :
    (verifyWebhook hmacSum r requestBody hmacKeys = true ↔
      ∃ hasher hexSignature signature timestamp msgId,
        r.Header (str "Twitch-Eventsub-Message-Signature")
          = some [hasher.method ++ str "=" ++ hexSignature] ∧
        r.Header (str "Twitch-Eventsub-Message-Timestamp") = some [timestamp] ∧
        r.Header (str "Twitch-Eventsub-Message-Id") = some [msgId] ∧
        DecodeString hexSignature = some signature ∧
        ∃ k ∈ hmacKeys, hmacSum hasher k (msgId ++ timestamp ++ requestBody) = signature) ∧
    (∀ name ∈ [str "Twitch-Eventsub-Message-Signature",
        str "Twitch-Eventsub-Message-Timestamp", str "Twitch-Eventsub-Message-Id"],
      (∀ v, r.Header name ≠ some [v]) →
        verifyWebhook hmacSum r requestBody hmacKeys = false) ∧
    (∀ signatures, r.Header (str "Twitch-Eventsub-Message-Signature") = some [signatures] →
      (∀ (hasher : Hasher) (hexSignature signature : GoString),
        signatures = hasher.method ++ str "=" ++ hexSignature →
          DecodeString hexSignature ≠ some signature) →
        verifyWebhook hmacSum r requestBody hmacKeys = false) ∧
    verifyWebhook hmacSum r requestBody [] = false ∧
    (∀ hasher hexSignature signature timestamp msgId,
      r.Header (str "Twitch-Eventsub-Message-Signature")
        = some [hasher.method ++ str "=" ++ hexSignature] →
      r.Header (str "Twitch-Eventsub-Message-Timestamp") = some [timestamp] →
      r.Header (str "Twitch-Eventsub-Message-Id") = some [msgId] →
      DecodeString hexSignature = some signature →
      (∀ k ∈ hmacKeys, hmacSum hasher k (msgId ++ timestamp ++ requestBody) ≠ signature) →
        verifyWebhook hmacSum r requestBody hmacKeys = false) := by
  refine ⟨verifyWebhook_eq_true_iff _ _ _ _, ?_, ?_, ?_, ?_⟩
  · intro name hname hv
    rw [← Bool.not_eq_true, verifyWebhook_eq_true_iff]
    rintro ⟨hasher, hexSignature, signature, timestamp, msgId, hsig, hts, hid, -, -⟩
    simp only [List.mem_cons, List.mem_singleton, List.not_mem_nil, or_false] at hname
    rcases hname with rfl | rfl | rfl
    · exact hv _ hsig
    · exact hv _ hts
    · exact hv _ hid
  · intro signatures hs hbad
    rw [← Bool.not_eq_true, verifyWebhook_eq_true_iff]
    rintro ⟨hasher, hexSignature, signature, timestamp, msgId, hsig, -, -, hdec, -⟩
    rw [hs] at hsig
    simp only [Option.some.injEq, List.cons.injEq, and_true] at hsig
    exact hbad hasher hexSignature signature hsig hdec
  · rw [← Bool.not_eq_true, verifyWebhook_eq_true_iff]
    rintro ⟨_, _, _, _, _, -, -, -, -, k, hk, -⟩
    cases hk
  · intro hasher hexSignature signature timestamp msgId hsig hts hid hdec hno
    rw [← Bool.not_eq_true, verifyWebhook_eq_true_iff]
    rintro ⟨hasher1, hexSignature1, signature1, timestamp1, msgId1, hsig1, hts1, hid1, hdec1,
      k, hk, hmatch⟩
    rw [hsig] at hsig1
    rw [hts] at hts1
    rw [hid] at hid1
    simp only [Option.some.injEq, List.cons.injEq, and_true] at hsig1 hts1 hid1
    obtain ⟨rfl, rfl⟩ := signature_header_inj _ _ _ _ hsig1
    subst hts1 hid1
    rw [hdec] at hdec1
    cases hdec1
    exact hno k hk hmatch

/-- C2 at concrete requests: a request without headers is rejected, and so is a
correctly signed request when the signing secret is not among the candidates. -/
theorem verifyWebhook_true_only_if_witness :
    verifyWebhook toyHMAC bareRequest [] [str "dom", str "sub"] = false ∧
    verifyWebhook toyHMAC (signedRequest toyHMAC (str "sub") (str "notification") (str "body"))
      (str "body") [] = false :=
  ⟨(verifyWebhook_true_only_if toyHMAC bareRequest [] [str "dom", str "sub"]).2.1
      (str "Twitch-Eventsub-Message-Id") (by simp) (fun v h => by simp [bareRequest] at h),
   (verifyWebhook_true_only_if toyHMAC
      (signedRequest toyHMAC (str "sub") (str "notification") (str "body"))
      (str "body") []).2.2.2.1⟩

/-- C3: for every request, body and candidate-secret list, `verifyWebhook` returns the
same verdict on every permutation of the list. -/
theorem verifyWebhook_perm (hmacSum : HMAC) (r : Request) (requestBody : GoString)
    (hmacKeys hmacKeys1 : List GoString) (hperm : hmacKeys.Perm hmacKeys1) :
    verifyWebhook hmacSum r requestBody hmacKeys
      = verifyWebhook hmacSum r requestBody hmacKeys1 := by
  rw [Bool.eq_iff_iff, verifyWebhook_eq_true_iff, verifyWebhook_eq_true_iff]
  simp only [hperm.mem_iff]

set_option maxRecDepth 100000 in
/-- C3 at a concrete request: the two secrets swapped. -/
theorem verifyWebhook_perm_witness :
    [str "dom", str "sub"].Perm [str "sub", str "dom"] ∧
    verifyWebhook toyHMAC (signedRequest toyHMAC (str "sub") (str "notification") (str "body"))
        (str "body") [str "dom", str "sub"]
      = verifyWebhook toyHMAC
        (signedRequest toyHMAC (str "sub") (str "notification") (str "body"))
        (str "body") [str "sub", str "dom"] :=
  ⟨List.Perm.swap _ _ _,
   verifyWebhook_perm toyHMAC
    (signedRequest toyHMAC (str "sub") (str "notification") (str "body")) (str "body")
    [str "dom", str "sub"] [str "sub", str "dom"] (List.Perm.swap _ _ _)⟩

/-! ## Lemmas on `handleWebhook` -/

theorem handleWebhook_verified (env : Env) (fs : FS) (r : Request)
    (requestBody msgType : GoString) (payload : PayloadJson)
    (hbody : r.Body = some requestBody)
    (hver : verifyWebhook env.hmacSum r requestBody [env.dom_secret, env.sub_secret] = true)
    (htype : r.Header (str "Twitch-Eventsub-Message-Type") = some [msgType])
    (hjson : env.jsonDecode requestBody = some payload) :
    handleWebhook env fs r =
      if msgType = str "webhook_callback_verification" then
        { body := payload.Challenge, effects := [], fs := fs, fault := false }
      else if msgType = str "notification" then
        if payload.Event.Reward.Title = str "lights" then lights fs payload.Event.UserInput
        else if payload.Event.Reward.Title = str "end the stream" then
          { body := [], effects := [.Run (str "killall") [str "obs"] []], fs := fs,
            fault := false }
        else if payload.Event.Reward.Title = str "silence me" then
          { body := [], effects := [.Run (str "./silencethot.sh") [] []], fs := fs,
            fault := false }
        else if payload.Event.Reward.Title = str "SimpBucks Premium" then
          { body := [],
            effects := [.Run (str "play")
              [if env.chance = 5 then str "bark.mp3" else str "woof.mp3"]
              [str "AUDIODEV=hw:1,0"]],
            fs := fs, fault := false }
        else if payload.Event.Reward.Title = str "scrollo" then
          { body := [], effects := [], fs := scrollo fs payload.Event.UserInput,
            fault := false }
        else { body := [], effects := [], fs := fs, fault := false }
      else { body := [], effects := [], fs := fs, fault := false } := by
  unfold handleWebhook
  simp only [hbody, hver, (getCoolHeader_ok _ _ _).2 htype, hjson, Bool.not_true]
  rfl

theorem notification_ne_callback :
    str "notification" ≠ str "webhook_callback_verification" := by decide

theorem lights_effects (fs : FS) (params : GoString) :
    lights fs params =
      { body := [],
        effects := [.SetColorState
          (if (lightsNumber params / 65535) % 2 = 0 then .bedBulb else .ceilingBulb)
          { Hue := lightsNumber params % 65535, Saturation := 65535, Brightness := 65535,
            Kelvin := 3200 } 1],
        fs := fs, fault := false } := by
  have hlt : lightsNumber params % 65535 % 2 ^ 16 = lightsNumber params % 65535 :=
    Nat.mod_eq_of_lt (by omega)
  unfold lights
  rcases Nat.mod_two_eq_zero_or_one (lightsNumber params / 65535) with h | h
  · simp only [h, List.get?_cons_zero, hlt]
    rfl
  · simp only [h, List.get?_cons_succ, List.get?_cons_zero, hlt]
    rfl

/-! ## The claims on `handleWebhook` -/

/-- C4: for every request on which `verifyWebhook` returns false, whatever its headers
and body, `handleWebhook` makes no call to a collaborator (no bulb call, no process
launch), leaves the filesystem as it is (no cache file, no link), and writes exactly
the fixed text `you're my good puppy` followed by a newline as the response body. -/
theorem handleWebhook_unverified (env : Env) (fs : FS) (r : Request)
    (requestBody : GoString) (hbody : r.Body = some requestBody)
    (hver : verifyWebhook env.hmacSum r requestBody [env.dom_secret, env.sub_secret] = false) :
    handleWebhook env fs r =
      { body := str "you're my good puppy\n", effects := [], fs := fs, fault := false } := by
  unfold handleWebhook
  simp only [hbody, hver]
  rfl

set_option maxRecDepth 100000 in
/-- C4 at a concrete request: a notification naming the reward `lights`, signed with a
secret that is not a candidate. -/
theorem handleWebhook_unverified_witness :
    verifyWebhook toyHMAC
        (signedRequest toyHMAC (str "other") (str "notification") (str "body")) (str "body")
        [str "dom", str "sub"] = false ∧
    (handleWebhook (toyEnv ⟨[], ⟨str "100", ⟨str "lights"⟩⟩⟩ 0) emptyFS
        (signedRequest toyHMAC (str "other") (str "notification") (str "body"))).body
      = str "you're my good puppy\n" ∧
    (handleWebhook (toyEnv ⟨[], ⟨str "100", ⟨str "lights"⟩⟩⟩ 0) emptyFS
        (signedRequest toyHMAC (str "other") (str "notification") (str "body"))).effects
      = [] :=
  ⟨by decide!,
   congrArg Outcome.body (handleWebhook_unverified (toyEnv ⟨[], ⟨str "100", ⟨str "lights"⟩⟩⟩ 0)
    emptyFS (signedRequest toyHMAC (str "other") (str "notification") (str "body"))
    (str "body") rfl (by decide!)),
   congrArg Outcome.effects
    (handleWebhook_unverified (toyEnv ⟨[], ⟨str "100", ⟨str "lights"⟩⟩⟩ 0)
    emptyFS (signedRequest toyHMAC (str "other") (str "notification") (str "body"))
    (str "body") rfl (by decide!))⟩

/-- C5: for every request that passes verification, whose message-type header is
`webhook_callback_verification` and whose body decodes as an envelope,
`handleWebhook` writes exactly the `challenge` of the envelope as the response body,
makes no call to a collaborator and leaves the filesystem as it is. -/
theorem handleWebhook_challenge (env : Env) (fs : FS) (r : Request)
    (requestBody : GoString) (payload : PayloadJson)
    (hbody : r.Body = some requestBody)
    (hver : verifyWebhook env.hmacSum r requestBody [env.dom_secret, env.sub_secret] = true)
    (htype : r.Header (str "Twitch-Eventsub-Message-Type")
      = some [str "webhook_callback_verification"])
    (hjson : env.jsonDecode requestBody = some payload) :
    handleWebhook env fs r =
      { body := payload.Challenge, effects := [], fs := fs, fault := false } := by
  rw [handleWebhook_verified env fs r requestBody _ payload hbody hver htype hjson]
  simp

set_option maxRecDepth 100000 in
/-- C5 at a concrete request: the challenge `abc123` is echoed. -/
theorem handleWebhook_challenge_witness :
    (handleWebhook (toyEnv ⟨str "abc123", ⟨[], ⟨[]⟩⟩⟩ 0) emptyFS
      (signedRequest toyHMAC (str "sub") (str "webhook_callback_verification")
        (str "body"))).body = str "abc123" :=
  congrArg Outcome.body
    (handleWebhook_challenge (toyEnv ⟨str "abc123", ⟨[], ⟨[]⟩⟩⟩ 0) emptyFS
      (signedRequest toyHMAC (str "sub") (str "webhook_callback_verification") (str "body"))
      (str "body") ⟨str "abc123", ⟨[], ⟨[]⟩⟩⟩ rfl (by decide!) (by decide!) rfl)

/-- C7: for every verified notification whose reward is `lights`, with `n` the number
derived from `user_input` (numeric or not): the handler makes exactly one call,
`SetColorState`, on the bulb at index `(n / 65535) mod 2` of the two-element list (bed
bulb, ceiling bulb); that index is 0 or 1, so the indexing is in range and the handler
does not fault; the hue is `n mod 65535`, lies between 0 and 65534 and is unchanged by
the conversion to 16 bits; saturation and brightness are 65535 and kelvin is 3200.  For
`user_input` equal to `100` the hue is 100 and the bulb index 0. -/
theorem handleWebhook_lights (env : Env) (fs : FS) (r : Request)
    (requestBody : GoString) (payload : PayloadJson)
    (hbody : r.Body = some requestBody)
    (hver : verifyWebhook env.hmacSum r requestBody [env.dom_secret, env.sub_secret] = true)
    (htype : r.Header (str "Twitch-Eventsub-Message-Type") = some [str "notification"])
    (hjson : env.jsonDecode requestBody = some payload)
    (hreward : payload.Event.Reward.Title = str "lights") :
    (∃ bulb,
      [Bulb.bedBulb, Bulb.ceilingBulb].get? ((lightsNumber payload.Event.UserInput / 65535) % 2)
        = some bulb ∧
      handleWebhook env fs r =
        { body := [],
          effects := [.SetColorState bulb
            { Hue := lightsNumber payload.Event.UserInput % 65535, Saturation := 65535,
              Brightness := 65535, Kelvin := 3200 } 1],
          fs := fs, fault := false }) ∧
    lightsNumber payload.Event.UserInput % 65535 ≤ 65534 ∧
    lightsNumber payload.Event.UserInput % 65535 % 2 ^ 16
      = lightsNumber payload.Event.UserInput % 65535 ∧
    ((lightsNumber payload.Event.UserInput / 65535) % 2 = 0 ∨
      (lightsNumber payload.Event.UserInput / 65535) % 2 = 1) ∧
    (payload.Event.UserInput = str "100" →
      handleWebhook env fs r =
        { body := [],
          effects := [.SetColorState Bulb.bedBulb
            { Hue := 100, Saturation := 65535, Brightness := 65535, Kelvin := 3200 } 1],
          fs := fs, fault := false }) := by
  have hrun : handleWebhook env fs r = lights fs payload.Event.UserInput := by
    rw [handleWebhook_verified env fs r requestBody _ payload hbody hver htype hjson]
    simp [notification_ne_callback, hreward]
  refine ⟨?_, by omega, Nat.mod_eq_of_lt (by omega), Nat.mod_two_eq_zero_or_one _, ?_⟩
  · rw [hrun, lights_effects]
    rcases Nat.mod_two_eq_zero_or_one (lightsNumber payload.Event.UserInput / 65535)
      with h | h
    · exact ⟨.bedBulb, by simp [h], by simp [h]⟩
    · exact ⟨.ceilingBulb, by simp [h], by simp [h]⟩
  · intro h100
    have hn : lightsNumber (str "100") = 100 := by decide!
    rw [hrun, lights_effects, h100, hn]
    rfl

set_option maxRecDepth 100000 in
/-- C7 at a concrete request: `user_input` is `100`. -/
theorem handleWebhook_lights_witness :
    (handleWebhook (toyEnv ⟨[], ⟨str "100", ⟨str "lights"⟩⟩⟩ 0) emptyFS
      (signedRequest toyHMAC (str "sub") (str "notification") (str "body"))).effects
      = [.SetColorState Bulb.bedBulb
          { Hue := 100, Saturation := 65535, Brightness := 65535, Kelvin := 3200 } 1] :=
  congrArg Outcome.effects
    ((handleWebhook_lights (toyEnv ⟨[], ⟨str "100", ⟨str "lights"⟩⟩⟩ 0) emptyFS
      (signedRequest toyHMAC (str "sub") (str "notification") (str "body"))
      (str "body") ⟨[], ⟨str "100", ⟨str "lights"⟩⟩⟩ rfl (by decide!) (by decide!) rfl
      rfl).2.2.2.2 rfl)

/-! ## `strconv.ParseUint` and the number of the `lights` branch -/

theorem decimalFrom_cons (n : Nat) (c : Byte) (rest : GoString) :
    decimalFrom n (c :: rest) = decimalFrom (n * 10 + (c.val - 48)) rest := rfl

theorem le_decimalFrom (s : GoString) (n : Nat) : n ≤ decimalFrom n s := by
  induction s generalizing n with
  | nil => exact Nat.le_refl n
  | cons c rest ih =>
    rw [decimalFrom_cons]
    exact Nat.le_trans (by omega) (ih _)

theorem parseUintLoop_digit (n : Nat) (c : Byte) (rest : GoString)
    (hc : isDigit c = true) :
    parseUintLoop n (c :: rest) =
      if n ≥ 1844674407370955162 then .error .outOfRange
      else if n * 10 % 18446744073709551616 + (c.val - 48) ≥ 18446744073709551616 then
        .error .outOfRange
      else parseUintLoop (n * 10 % 18446744073709551616 + (c.val - 48)) rest := by
  simp only [isDigit, Bool.and_eq_true, decide_eq_true_eq] at hc
  have h64 : (2 : Nat) ^ 64 = 18446744073709551616 := by norm_num
  have hmax : maxUint64 / 10 + 1 = 1844674407370955162 := by
    unfold maxUint64
    norm_num
  have hmax1 : maxUint64 = 18446744073709551615 := by
    unfold maxUint64
    norm_num
  rw [parseUintLoop]
  simp only [hc, and_self, if_true, h64, hmax, hmax1]
  have hd : ¬ (c.val - 48 ≥ 10) := by omega
  rw [if_neg hd]
  by_cases hcut : n ≥ 1844674407370955162
  · rw [if_pos hcut, if_pos hcut]
  · rw [if_neg hcut, if_neg hcut]
    have hlt : n * 10 % 18446744073709551616 < 18446744073709551616 :=
      Nat.mod_lt _ (by norm_num)
    by_cases hov : n * 10 % 18446744073709551616 + (c.val - 48) ≥ 18446744073709551616
    · rw [if_pos hov, if_pos]
      left
      omega
    · rw [if_neg hov, if_neg, Nat.mod_eq_of_lt (by omega)]
      rw [Nat.mod_eq_of_lt (by omega)]
      omega

theorem parseUintLoop_not_digit (n : Nat) (c : Byte) (rest : GoString)
    (hc : isDigit c = false) :
    parseUintLoop n (c :: rest) = .error .invalid := by
  have hc1 : ¬ (48 ≤ c.val ∧ c.val ≤ 57) := by
    intro h
    simp [isDigit, h] at hc
  rw [parseUintLoop]
  simp only [hc1, if_false]
  split
  · rfl
  · rename_i d hd
    split at hd
    · simp only [Option.some.injEq] at hd
      subst hd
      rw [if_pos (by omega)]
    · cases hd

theorem parseUintLoop_of_digits (s : GoString) (n : Nat)
    (hs : ∀ c ∈ s, isDigit c = true) (hv : decimalFrom n s < 18446744073709551616) :
    parseUintLoop n s = .ok (decimalFrom n s) := by
  induction s generalizing n with
  | nil => rfl
  | cons c rest ih =>
    have hc := hs c (List.mem_cons_self _ _)
    have hle := le_decimalFrom rest (n * 10 + (c.val - 48))
    rw [decimalFrom_cons] at hv ⊢
    rw [parseUintLoop_digit n c rest hc, if_neg (by omega), Nat.mod_eq_of_lt (by omega),
      if_neg (by omega)]
    exact ih _ (fun c hc => hs c (List.mem_cons_of_mem _ hc)) hv

theorem parseUintLoop_ok (s : GoString) (n m : Nat) (hn : n < 18446744073709551616)
    (h : parseUintLoop n s = .ok m) :
    (∀ c ∈ s, isDigit c = true) ∧ decimalFrom n s = m ∧ m < 18446744073709551616 := by
  induction s generalizing n with
  | nil =>
    simp only [parseUintLoop, Except.ok.injEq] at h
    subst h
    exact ⟨by simp, rfl, hn⟩
  | cons c rest ih =>
    cases hc : isDigit c with
    | false =>
      rw [parseUintLoop_not_digit n c rest hc] at h
      cases h
    | true =>
      rw [parseUintLoop_digit n c rest hc] at h
      split at h
      · cases h
      · rename_i hcut
        split at h
        · cases h
        · rename_i hov
          have h1 : n * 10 % 18446744073709551616 = n * 10 := Nat.mod_eq_of_lt (by omega)
          rw [h1] at h hov
          obtain ⟨hd, hv, hm⟩ := ih _ (by omega) h
          refine ⟨?_, by rw [decimalFrom_cons]; exact hv, hm⟩
          intro x hx
          rcases List.mem_cons.1 hx with rfl | hx
          · exact hc
          · exact hd x hx

theorem ParseUint_eq_ok_iff (s : GoString) (m : Nat) :
    ParseUint s = .ok m ↔
      isNumeric s = true ∧ decimalValue s < 2 ^ 64 ∧ m = decimalValue s := by
  have h64 : (2 : Nat) ^ 64 = 18446744073709551616 := by norm_num
  rw [h64]
  unfold ParseUint isNumeric decimalValue
  by_cases hs : s = []
  · subst hs
    simp
  · simp only [hs, if_false]
    constructor
    · intro h
      obtain ⟨hd, hv, hm⟩ := parseUintLoop_ok s 0 m (by norm_num) h
      refine ⟨?_, by rw [hv]; exact hm, hv.symm⟩
      simp only [Bool.and_eq_true, Bool.not_eq_true', List.isEmpty_eq_false, List.all_eq_true]
      exact ⟨hs, hd⟩
    · rintro ⟨hnum, hv, rfl⟩
      simp only [Bool.and_eq_true, List.all_eq_true] at hnum
      exact parseUintLoop_of_digits s 0 hnum.2 hv

/-! ## The claim on the number of the `lights` branch -/

set_option maxRecDepth 100000 in
/-- C6 as stated fails: `18446744073709551616` (two to the 64) is a numeric string, yet
`ParseUint` reports a range error and the number derived is the CRC-32 of its bytes,
not the integer the digits denote. -/
theorem lightsNumber_numeric_counterexample :
    isNumeric (str "18446744073709551616") = true ∧
    decimalValue (str "18446744073709551616") = 18446744073709551616 ∧
    ParseUint (str "18446744073709551616") = .error .outOfRange ∧
    lightsNumber (str "18446744073709551616") = ChecksumIEEE (str "18446744073709551616") ∧
    lightsNumber (str "18446744073709551616") = 653721760 ∧
    lightsNumber (str "18446744073709551616") ≠ decimalValue (str "18446744073709551616") :=
  ⟨by decide!, by decide!, by rfl, by decide!, by decide!, by decide!⟩

/-- C6 amended: for the `lights` reward, for every `user_input` that is a numeric string
(one or more decimal digits) denoting a value below two to the 64, the number derived
equals exactly the integer the digits denote; the CRC-32 fallback is used exactly when
`user_input` is not such a string, that is when it is not numeric or denotes a value of
two to the 64 or more. -/
theorem lightsNumber_numeric (params : GoString) :
    (isNumeric params = true ∧ decimalValue params < 2 ^ 64 →
      ParseUint params = .ok (decimalValue params) ∧
      lightsNumber params = decimalValue params) ∧
    ((∃ e, ParseUint params = .error e) ↔
      ¬ (isNumeric params = true ∧ decimalValue params < 2 ^ 64)) ∧
    ((∃ e, ParseUint params = .error e) → lightsNumber params = ChecksumIEEE params) := by
  refine ⟨?_, ?_, ?_⟩
  · rintro ⟨hnum, hv⟩
    have h := (ParseUint_eq_ok_iff params _).2 ⟨hnum, hv, rfl⟩
    exact ⟨h, by simp [lightsNumber, h]⟩
  · constructor
    · rintro ⟨e, he⟩ ⟨hnum, hv⟩
      rw [(ParseUint_eq_ok_iff params _).2 ⟨hnum, hv, rfl⟩] at he
      cases he
    · intro hno
      cases hp : ParseUint params with
      | error e => exact ⟨e, rfl⟩
      | ok m =>
        obtain ⟨hnum, hv, -⟩ := (ParseUint_eq_ok_iff params m).1 hp
        exact absurd ⟨hnum, hv⟩ hno
  · rintro ⟨e, he⟩
    simp [lightsNumber, he]

set_option maxRecDepth 100000 in
/-- C6 amended at concrete inputs: `007` denotes 7, and `hello` is not numeric. -/
theorem lightsNumber_numeric_witness :
    lightsNumber (str "007") = 7 ∧
    lightsNumber (str "hello") = ChecksumIEEE (str "hello") :=
  ⟨((lightsNumber_numeric (str "007")).1 (by decide!)).2.trans (by decide!),
   (lightsNumber_numeric (str "hello")).2.2
    (((lightsNumber_numeric (str "hello")).2.1).2 (by decide!))⟩

/-! ## The checksum is a 32-bit value -/

theorem tableStep_lt (crc : Nat) (h : crc < 2 ^ 32) : tableStep crc < 2 ^ 32 := by
  have hs : crc >>> 1 < 2 ^ 32 := by
    rw [Nat.shiftRight_eq_div_pow]
    omega
  unfold tableStep
  split
  · exact Nat.xor_lt_two_pow hs (by unfold IEEE; norm_num)
  · exact hs

theorem tableEntry_lt (i : Nat) (h : i < 2 ^ 32) : tableEntry i < 2 ^ 32 := by
  unfold tableEntry
  exact tableStep_lt _ (tableStep_lt _ (tableStep_lt _ (tableStep_lt _ (tableStep_lt _
    (tableStep_lt _ (tableStep_lt _ (tableStep_lt _ h)))))))

theorem updateLoop_lt (p : GoString) (crc : Nat) (h : crc < 2 ^ 32) :
    updateLoop crc p < 2 ^ 32 := by
  induction p generalizing crc with
  | nil => exact h
  | cons v rest ih =>
    have hv : v.val < 2 ^ 32 := by omega
    have hm : crc % 256 < 2 ^ 32 := by omega
    have hs : crc >>> 8 < 2 ^ 32 := by
      rw [Nat.shiftRight_eq_div_pow]
      omega
    exact ih _ (Nat.xor_lt_two_pow (tableEntry_lt _ (Nat.xor_lt_two_pow hm hv)) hs)

theorem ChecksumIEEE_lt (p : GoString) : ChecksumIEEE p < 2 ^ 32 := by
  unfold ChecksumIEEE simpleUpdate
  exact Nat.xor_lt_two_pow (updateLoop_lt p _ (Nat.xor_lt_two_pow (by norm_num) (by norm_num)))
    (by norm_num)

theorem lightsNumber_lt (params : GoString) : lightsNumber params < 2 ^ 64 := by
  unfold lightsNumber
  split
  · rename_i number h
    have := (ParseUint_eq_ok_iff params number).1 h
    omega
  · exact Nat.lt_trans (ChecksumIEEE_lt params) (by norm_num)

set_option maxRecDepth 100000 in
theorem ChecksumIEEE_check :
    ChecksumIEEE [] = 0 ∧ ChecksumIEEE (str "123456789") = 0xCBF43926 := by
  decide!

/-! ## Runes: `truncateString` on UTF-8 text -/

theorem byte_val (n : Nat) : (byte n).val = n % 256 := rfl

theorem char_toNat_valid (c : Char) :
    c.toNat < 0xD800 ∨ (0xDFFF < c.toNat ∧ c.toNat < 0x110000) := c.valid

theorem runeWidth_utf8EncodeChar (c : Char) (rest : GoString) :
    runeWidth (utf8EncodeChar c ++ rest) = (utf8EncodeChar c).length := by
  have hv := char_toNat_valid c
  unfold utf8EncodeChar
  simp only []
  split
  · simp only [List.singleton_append, List.length_singleton, runeWidth, byte_val]
    rw [if_pos (by omega)]
  · split
    · simp only [List.cons_append, List.nil_append, List.length_cons, List.length_nil, runeWidth,
        byte_val, isCont]
      rw [if_neg (by omega), if_pos (by omega)]
      simp
      omega
    · split
      · simp only [List.cons_append, List.nil_append, List.length_cons, List.length_nil, runeWidth,
          byte_val, isCont]
        rw [if_neg (by omega), if_neg (by omega), if_pos (by omega)]
        split_ifs <;> first | rfl | omega | (simp at *; omega)
      · simp only [List.cons_append, List.nil_append, List.length_cons, List.length_nil, runeWidth,
          byte_val, isCont]
        rw [if_neg (by omega), if_neg (by omega), if_neg (by omega), if_pos (by omega)]
        split_ifs <;> first | rfl | omega | (simp at *; omega)

theorem utf8EncodeChar_ne_nil (c : Char) : utf8EncodeChar c ≠ [] := by
  unfold utf8EncodeChar
  simp only []
  split_ifs <;> simp

theorem truncateLoop_cons_skip (n skip : Nat) (b : Byte) (t : GoString) :
    truncateLoop n (skip + 1) (b :: t) = b :: truncateLoop n skip t := by
  cases n <;> rfl

theorem truncateLoop_cons_start (n : Nat) (b : Byte) (t : GoString) :
    truncateLoop (n + 1) 0 (b :: t) = b :: truncateLoop n (runeWidth (b :: t) - 1) t := rfl

theorem runeCountLoop_cons_skip (skip : Nat) (b : Byte) (t : GoString) :
    runeCountLoop (skip + 1) (b :: t) = runeCountLoop skip t := rfl

theorem runeCountLoop_cons_start (b : Byte) (t : GoString) :
    runeCountLoop 0 (b :: t) = 1 + runeCountLoop (runeWidth (b :: t) - 1) t := rfl

theorem truncateLoop_skip (n : Nat) (l rest : GoString) :
    truncateLoop n l.length (l ++ rest) = l ++ truncateLoop n 0 rest := by
  induction l with
  | nil => rfl
  | cons b t ih =>
    rw [List.length_cons, List.cons_append, truncateLoop_cons_skip, ih, List.cons_append]

theorem truncateLoop_rune (n : Nat) (e rest : GoString) (hne : e ≠ [])
    (hw : runeWidth (e ++ rest) = e.length) :
    truncateLoop (n + 1) 0 (e ++ rest) = e ++ truncateLoop n 0 rest := by
  cases e with
  | nil => exact absurd rfl hne
  | cons b t =>
    rw [List.cons_append] at hw
    rw [List.cons_append, truncateLoop_cons_start, hw, List.length_cons, Nat.add_sub_cancel,
      truncateLoop_skip, List.cons_append]

theorem truncateLoop_zero (s : GoString) : truncateLoop 0 0 s = [] := by
  cases s <;> rfl

theorem truncateString_utf8Encode (cs : List Char) (prec : Nat) :
    truncateString (utf8Encode cs) prec = utf8Encode (cs.take prec) := by
  unfold truncateString
  induction cs generalizing prec with
  | nil => cases prec <;> rfl
  | cons c rest ih =>
    cases prec with
    | zero => simp [truncateLoop_zero, utf8Encode]
    | succ n =>
      simp only [utf8Encode, List.take_succ_cons]
      rw [truncateLoop_rune n _ _ (utf8EncodeChar_ne_nil c) (runeWidth_utf8EncodeChar c _), ih]

theorem truncateLoop_of_count_le (s : GoString) (n skip : Nat)
    (h : runeCountLoop skip s ≤ n) : truncateLoop n skip s = s := by
  induction s generalizing n skip with
  | nil => cases n <;> cases skip <;> rfl
  | cons b t ih =>
    cases skip with
    | succ k =>
      rw [runeCountLoop_cons_skip] at h
      rw [truncateLoop_cons_skip, ih n k h]
    | zero =>
      rw [runeCountLoop_cons_start] at h
      cases n with
      | zero => omega
      | succ m => rw [truncateLoop_cons_start, ih m _ (by omega)]

theorem truncateString_of_count_le (s : GoString) (prec : Nat)
    (h : RuneCountInString s ≤ prec) : truncateString s prec = s :=
  truncateLoop_of_count_le s prec 0 h

/-! ## `FormatUint` writes the decimal digits -/

theorem utf8EncodeChar_digitChar (d : Nat) (hd : d < 10) :
    utf8EncodeChar (Nat.digitChar d) = [byte (48 + d)] := by
  interval_cases d <;> decide

theorem decimalFrom_append (s t : GoString) (a : Nat) :
    decimalFrom a (s ++ t) = decimalFrom (decimalFrom a s) t := by
  induction s generalizing a with
  | nil => rfl
  | cons c rest ih => rw [List.cons_append, decimalFrom_cons, decimalFrom_cons, ih]

theorem utf8Encode_append (l m : List Char) :
    utf8Encode (l ++ m) = utf8Encode l ++ utf8Encode m := by
  induction l with
  | nil => rfl
  | cons c rest ih =>
    show utf8EncodeChar c ++ utf8Encode (rest ++ m)
      = utf8EncodeChar c ++ utf8Encode rest ++ utf8Encode m
    rw [ih, List.append_assoc]

theorem toDigitsCore_decimal (fuel n : Nat) (ds : List Char) (hn : n < fuel) :
    ∃ front : List Char, Nat.toDigitsCore 10 fuel n ds = front ++ ds ∧
      (∀ c ∈ utf8Encode front, isDigit c = true) ∧ front ≠ [] ∧
      decimalFrom 0 (utf8Encode front) = n := by
  induction fuel generalizing n ds with
  | zero => omega
  | succ f ih =>
    have hd : n % 10 < 10 := Nat.mod_lt _ (by norm_num)
    have henc := utf8EncodeChar_digitChar (n % 10) hd
    have hdig : isDigit (byte (48 + n % 10)) = true := by
      simp only [isDigit, byte_val, Bool.and_eq_true, decide_eq_true_eq]
      omega
    have hval : (byte (48 + n % 10)).val - 48 = n % 10 := by
      rw [byte_val]
      omega
    unfold Nat.toDigitsCore
    simp only []
    split
    · rename_i h0
      refine ⟨[Nat.digitChar (n % 10)], rfl, ?_, by simp, ?_⟩
      · simp only [utf8Encode, henc, List.append_nil, List.mem_singleton]
        rintro c rfl
        exact hdig
      · simp only [utf8Encode, henc, List.append_nil]
        rw [decimalFrom_cons, hval]
        show 0 * 10 + n % 10 = n
        omega
    · rename_i h0
      obtain ⟨front, hfront, hall, -, hv⟩ := ih (n / 10) (Nat.digitChar (n % 10) :: ds) (by omega)
      refine ⟨front ++ [Nat.digitChar (n % 10)], by rw [hfront]; simp, ?_, by simp, ?_⟩
      · intro c hc
        rw [utf8Encode_append] at hc
        rcases List.mem_append.1 hc with h | h
        · exact hall c h
        · simp only [utf8Encode, henc, List.append_nil, List.mem_singleton] at h
          rw [h]
          exact hdig
      · rw [utf8Encode_append, decimalFrom_append, hv]
        simp only [utf8Encode, henc, List.append_nil]
        rw [decimalFrom_cons, hval]
        show n / 10 * 10 + n % 10 = n
        omega

theorem FormatUint_decimal (n : Nat) :
    isNumeric (FormatUint n) = true ∧ decimalValue (FormatUint n) = n := by
  obtain ⟨front, hfront, hall, hne, hv⟩ := toDigitsCore_decimal (n + 1) n [] (by omega)
  unfold FormatUint Nat.toDigits
  rw [hfront, List.append_nil]
  refine ⟨?_, hv⟩
  simp only [isNumeric, Bool.and_eq_true, Bool.not_eq_true', List.isEmpty_eq_false,
    List.all_eq_true]
  refine ⟨?_, hall⟩
  cases front with
  | nil => exact absurd rfl hne
  | cons c rest =>
    simp only [utf8Encode]
    intro h
    exact utf8EncodeChar_ne_nil c (List.append_eq_nil.1 h).1

/-! ## Lemmas on the `scrollo` branch -/

theorem scrolloFilePath_ne_obs (scrolloHash : GoString) :
    scrolloFilePath scrolloHash ≠ obsScrolloFile := by
  have h1 : str ".scrollocache/" = 0x2e :: str "scrollocache/" := by decide!
  have h2 : obsScrolloFile = 0x73 :: str "crollo.txt" := by decide!
  unfold scrolloFilePath
  rw [h1, h2, List.cons_append]
  intro h
  have h3 := (List.cons.inj h).1
  exact absurd h3 (by decide)

theorem cachePath_ne_obs (params : GoString) : cachePath params ≠ obsScrolloFile :=
  scrolloFilePath_ne_obs _

theorem scrolloLink_data (fs : FS) (scrolloFile : GoString) :
    (scrolloLink fs scrolloFile).data = fs.data := by
  unfold scrolloLink FS.Link
  split
  · rfl
  · rename_i fs1 h
    split at h
    · cases h
    · split at h
      · cases h
      · cases h
        rfl

theorem scrolloLink_names (fs : FS) (scrolloFile p : GoString) (hp : p ≠ obsScrolloFile) :
    (scrolloLink fs scrolloFile).names p = fs.names p := by
  unfold scrolloLink FS.Link
  split
  · rfl
  · rename_i fs1 h
    split at h
    · cases h
    · split at h
      · cases h
      · cases h
        simp [hp]

theorem scrolloLink_obs_of_exists (fs : FS) (scrolloFile : GoString)
    (hobs : fs.Stat obsScrolloFile = true) :
    scrolloLink fs scrolloFile = fs := by
  unfold FS.Stat at hobs
  unfold scrolloLink FS.Link
  cases h1 : fs.names scrolloFile with
  | none => rfl
  | some i =>
    cases h2 : fs.names obsScrolloFile with
    | none => simp [h2] at hobs
    | some j => rfl

theorem scrolloLink_ReadFile (fs : FS) (scrolloFile p : GoString) (hp : p ≠ obsScrolloFile) :
    (scrolloLink fs scrolloFile).ReadFile p = fs.ReadFile p := by
  unfold FS.ReadFile
  rw [scrolloLink_names fs scrolloFile p hp, scrolloLink_data]

theorem scrollo_of_exists (fs : FS) (params : GoString)
    (h : fs.Stat (cachePath params) = true) :
    scrollo fs params = scrolloLink fs (cachePath params) := by
  unfold cachePath at h
  unfold scrollo cachePath
  simp only [h, if_true]

theorem scrollo_of_no_dir (fs : FS) (params : GoString)
    (h : fs.Stat (cachePath params) = false) (hdir : fs.cacheDir = false) :
    scrollo fs params = fs := by
  unfold cachePath at h
  unfold scrollo FS.Create
  simp [h, hdir]

theorem scrollo_of_absent (fs : FS) (params : GoString)
    (h : fs.Stat (cachePath params) = false) (hdir : fs.cacheDir = true) :
    scrollo fs params =
      scrolloLink
        { cacheDir := fs.cacheDir
          names := fun p => if p = cachePath params then some fs.next else fs.names p
          data := fun j => if j = fs.next then scrolloText params else fs.data j
          next := fs.next + 1 }
        (cachePath params) := by
  have hnone : fs.names (cachePath params) = none := by
    unfold FS.Stat at h
    cases hn : fs.names (cachePath params) with
    | none => rfl
    | some i => simp [hn] at h
  unfold cachePath at h hnone
  unfold scrollo FS.Create FS.WriteString cachePath
  simp only [h, hdir, if_true, hnone, Bool.false_eq_true, if_false]
  congr 2
  funext j
  by_cases hj : j = fs.next
  · simp [hj]
  · simp [hj]

theorem scrollo_ReadFile_of_exists (fs : FS) (params : GoString)
    (h : fs.Stat (cachePath params) = true) :
    (scrollo fs params).ReadFile (cachePath params) = fs.ReadFile (cachePath params) := by
  rw [scrollo_of_exists fs params h]
  exact scrolloLink_ReadFile _ _ _ (cachePath_ne_obs _)

theorem scrollo_ReadFile_of_absent (fs : FS) (params : GoString)
    (h : fs.Stat (cachePath params) = false) (hdir : fs.cacheDir = true) :
    (scrollo fs params).ReadFile (cachePath params) = some (scrolloText params) := by
  rw [scrollo_of_absent fs params h hdir,
    scrolloLink_ReadFile _ _ _ (cachePath_ne_obs _)]
  simp [FS.ReadFile]

theorem Stat_of_ReadFile (fs : FS) (p content : GoString)
    (h : fs.ReadFile p = some content) : fs.Stat p = true := by
  unfold FS.ReadFile at h
  unfold FS.Stat
  cases hn : fs.names p with
  | none => simp [hn] at h
  | some i => rfl

theorem ReadFile_of_Stat_false (fs : FS) (p : GoString)
    (h : fs.Stat p = false) : fs.ReadFile p = none := by
  unfold FS.Stat at h
  unfold FS.ReadFile
  cases hn : fs.names p with
  | none => rfl
  | some i => simp [hn] at h

theorem scrollo_obs_of_exists (fs : FS) (params : GoString)
    (hobs : fs.Stat obsScrolloFile = true) :
    (scrollo fs params).names obsScrolloFile = fs.names obsScrolloFile := by
  have hne : obsScrolloFile ≠ cachePath params := fun e => scrolloFilePath_ne_obs _ e.symm
  cases h : fs.Stat (cachePath params) with
  | true => rw [scrollo_of_exists fs params h, scrolloLink_obs_of_exists fs _ hobs]
  | false =>
    cases hdir : fs.cacheDir with
    | false => rw [scrollo_of_no_dir fs params h hdir]
    | true =>
      rw [scrollo_of_absent fs params h hdir, scrolloLink_obs_of_exists]
      · simp [hne]
      · unfold FS.Stat at hobs ⊢
        simpa [hne] using hobs

theorem handleWebhook_scrollo (env : Env) (fs : FS) (r : Request)
    (requestBody : GoString) (payload : PayloadJson)
    (hbody : r.Body = some requestBody)
    (hver : verifyWebhook env.hmacSum r requestBody [env.dom_secret, env.sub_secret] = true)
    (htype : r.Header (str "Twitch-Eventsub-Message-Type") = some [str "notification"])
    (hjson : env.jsonDecode requestBody = some payload)
    (hreward : payload.Event.Reward.Title = str "scrollo") :
    handleWebhook env fs r =
      { body := [], effects := [], fs := scrollo fs payload.Event.UserInput, fault := false } := by
  have h1 : str "scrollo" ≠ str "lights" := by decide
  have h2 : str "scrollo" ≠ str "end the stream" := by decide
  have h3 : str "scrollo" ≠ str "silence me" := by decide
  have h4 : str "scrollo" ≠ str "SimpBucks Premium" := by decide
  rw [handleWebhook_verified env fs r requestBody _ payload hbody hver htype hjson]
  simp [notification_ne_callback, hreward, h1, h2, h3, h4]

set_option maxRecDepth 100000 in
theorem signedRequest_verified :
    verifyWebhook toyHMAC (signedRequest toyHMAC (str "sub") (str "notification") (str "body"))
      (str "body") [str "dom", str "sub"] = true := by
  decide!

set_option maxRecDepth 100000 in
theorem scrolloDelivery_eq (text : GoString) (fs : FS) :
    scrolloDelivery text fs = scrollo fs text :=
  congrArg Outcome.fs
    (handleWebhook_scrollo (toyEnv ⟨[], ⟨text, ⟨str "scrollo"⟩⟩⟩ 0) fs
      (signedRequest toyHMAC (str "sub") (str "notification") (str "body")) (str "body")
      ⟨[], ⟨text, ⟨str "scrollo"⟩⟩⟩ rfl signedRequest_verified (by decide!) rfl rfl)

/-! ## The claims on the `scrollo` branch -/

set_option maxRecDepth 100000 in
/-- C8 fails on the code: `os.Link` does not replace an existing name.  Starting from an
empty cache and no `scrollo.txt`, a verified `scrollo` delivery of `a` links
`scrollo.txt` to the entry of `a`; a second delivery of `b` creates the entry of `b`,
but its `os.Link` fails because `scrollo.txt` exists, so `scrollo.txt` still names the
entry of `a` and still reads as the text of `a`.  A second delivery of `a` itself meets
the same failing `os.Link`. -/
theorem scrollo_relink_fails :
    (scrolloDelivery (str "a") emptyFS).names obsScrolloFile = some 0 ∧
    (scrolloDelivery (str "a") emptyFS).names (cachePath (str "a")) = some 0 ∧
    (scrolloDelivery (str "b") (scrolloDelivery (str "a") emptyFS)).names
      (cachePath (str "b")) = some 1 ∧
    (scrolloDelivery (str "b") (scrolloDelivery (str "a") emptyFS)).names obsScrolloFile
      = some 0 ∧
    (scrolloDelivery (str "b") (scrolloDelivery (str "a") emptyFS)).ReadFile obsScrolloFile
      = some (str " a ✨✨✨ ") ∧
    (scrolloDelivery (str "b") (scrolloDelivery (str "a") emptyFS)).ReadFile
      (cachePath (str "b")) = some (str " b ✨✨✨ ") ∧
    ((scrolloDelivery (str "b") (scrolloDelivery (str "a") emptyFS)).Link
      (cachePath (str "b")) obsScrolloFile).isNone = true ∧
    ((scrolloDelivery (str "a") emptyFS).Link (cachePath (str "a")) obsScrolloFile).isNone
      = true := by
  decide!

/-- C9: in every filesystem state in which a file exists at the cache path of `params`,
the `scrollo` branch leaves the content of that file unchanged; hence running the branch
a second time, with the same text or with a text of equal checksum, leaves the content
of the cache file as it was after the first run, which is the rendering of the first
text when the first run created the file. -/
theorem scrollo_first_write_wins (fs : FS) (params params1 : GoString)
    (hsum : ChecksumIEEE params1 = ChecksumIEEE params) :
    (∀ content, fs.ReadFile (cachePath params) = some content →
      (scrollo fs params).ReadFile (cachePath params) = some content) ∧
    (scrollo (scrollo fs params) params1).ReadFile (cachePath params)
      = (scrollo fs params).ReadFile (cachePath params) ∧
    (fs.cacheDir = true → fs.Stat (cachePath params) = false →
      (scrollo (scrollo fs params) params1).ReadFile (cachePath params)
        = some (scrolloText params)) := by
  have hpath : cachePath params1 = cachePath params := by
    unfold cachePath
    rw [hsum]
  have hkeep : ∀ (fs0 : FS) (p content : GoString),
      fs0.ReadFile (cachePath p) = some content →
        (scrollo fs0 p).ReadFile (cachePath p) = some content := by
    intro fs0 p content h
    rw [scrollo_ReadFile_of_exists fs0 p (Stat_of_ReadFile _ _ _ h), h]
  have hsecond : ∀ content, (scrollo fs params).ReadFile (cachePath params) = some content →
      (scrollo (scrollo fs params) params1).ReadFile (cachePath params) = some content := by
    intro content h
    have := hkeep (scrollo fs params) params1 content (by rw [hpath]; exact h)
    rw [hpath] at this
    exact this
  refine ⟨hkeep fs params, ?_, ?_⟩
  · cases hex : fs.Stat (cachePath params) with
    | true =>
      obtain ⟨content, hc⟩ : ∃ content, fs.ReadFile (cachePath params) = some content := by
        unfold FS.Stat at hex
        unfold FS.ReadFile
        cases hn : fs.names (cachePath params) with
        | none => simp [hn] at hex
        | some i => exact ⟨_, rfl⟩
      rw [hsecond content (hkeep fs params content hc), hkeep fs params content hc]
    | false =>
      cases hdir : fs.cacheDir with
      | true =>
        rw [hsecond _ (scrollo_ReadFile_of_absent fs params hex hdir),
          scrollo_ReadFile_of_absent fs params hex hdir]
      | false =>
        rw [scrollo_of_no_dir fs params hex hdir]
        rw [scrollo_of_no_dir fs params1 (by rw [hpath]; exact hex) hdir]
  · intro hdir hex
    exact hsecond _ (scrollo_ReadFile_of_absent fs params hex hdir)

set_option maxRecDepth 100000 in
/-- C9 at a concrete input: `hello` twice, starting from an empty cache. -/
theorem scrollo_first_write_wins_witness :
    (scrollo (scrollo emptyFS (str "hello")) (str "hello")).ReadFile (cachePath (str "hello"))
      = some (str " hello ✨✨✨ ") :=
  ((scrollo_first_write_wins emptyFS (str "hello") (str "hello") rfl).2.2 rfl
    (by decide!)).trans (by decide!)

set_option maxRecDepth 100000 in
/-- C10 as stated fails: the handler never makes the directory `.scrollocache`.  In a
filesystem without that directory the cache entry of `hello` does not exist, yet
`os.Create` fails, the handler logs and returns, and after the `scrollo` branch (and
after a whole verified `scrollo` delivery) there is still no file at
`.scrollocache/907060870` and no `scrollo.txt`. -/
theorem scrollo_creates_entry_counterexample :
    noDirFS.Stat (str ".scrollocache/" ++ FormatUint (ChecksumIEEE (str "hello"))) = false ∧
    str ".scrollocache/" ++ FormatUint (ChecksumIEEE (str "hello"))
      = str ".scrollocache/907060870" ∧
    (noDirFS.Create (str ".scrollocache/907060870")).isNone = true ∧
    (scrollo noDirFS (str "hello")).ReadFile (str ".scrollocache/907060870") = none ∧
    (scrollo noDirFS (str "hello")).Stat (str ".scrollocache/907060870") = false ∧
    (scrolloDelivery (str "hello") noDirFS).ReadFile (str ".scrollocache/907060870") = none ∧
    (scrolloDelivery (str "hello") noDirFS).ReadFile obsScrolloFile = none := by
  decide!

/-- C10 amended: for every filesystem state in which the directory `.scrollocache`
exists and every text whose cache entry does not yet exist, the `scrollo` branch creates
the file whose name inside `.scrollocache` is the decimal string of the 32-bit IEEE CRC
of the bytes of the text (a string of digits denoting that value), with content exactly
one space, the text cut to its first 256 runes, and the decoration.  The cut text is the
whole text when the text has at most 256 runes, and for UTF-8 text it is the encoding
of the first 256 characters.  For the text `hello` the file is
`.scrollocache/907060870` and the content is `hello` between a space and the
decoration. -/
theorem scrollo_creates_entry (fs : FS) (params : GoString)
    (hdir : fs.cacheDir = true)
    (habsent : fs.Stat (str ".scrollocache/" ++ FormatUint (ChecksumIEEE params)) = false) :
    (scrollo fs params).ReadFile (str ".scrollocache/" ++ FormatUint (ChecksumIEEE params))
      = some (str " " ++ truncateString params 256 ++ str " ✨✨✨ ") ∧
    ChecksumIEEE params < 2 ^ 32 ∧
    isNumeric (FormatUint (ChecksumIEEE params)) = true ∧
    decimalValue (FormatUint (ChecksumIEEE params)) = ChecksumIEEE params ∧
    (RuneCountInString params ≤ 256 → truncateString params 256 = params) ∧
    (∀ cs : List Char, params = utf8Encode cs →
      truncateString params 256 = utf8Encode (cs.take 256)) ∧
    (params = str "hello" →
      str ".scrollocache/" ++ FormatUint (ChecksumIEEE params) = str ".scrollocache/907060870" ∧
      str " " ++ truncateString params 256 ++ str " ✨✨✨ " = str " hello ✨✨✨ ") := by
  refine ⟨scrollo_ReadFile_of_absent fs params habsent hdir, ChecksumIEEE_lt params,
    (FormatUint_decimal _).1, (FormatUint_decimal _).2,
    truncateString_of_count_le params 256, ?_, ?_⟩
  · intro cs hcs
    rw [hcs, truncateString_utf8Encode]
  · intro h
    subst h
    constructor <;> decide!

set_option maxRecDepth 100000 in
/-- C10 amended at a concrete input: `hello`, starting from an empty cache directory. -/
theorem scrollo_creates_entry_witness :
    (scrollo emptyFS (str "hello")).ReadFile (str ".scrollocache/907060870")
      = some (str " hello ✨✨✨ ") :=
  ((scrollo_creates_entry emptyFS (str "hello") rfl (by decide!)).1.symm.trans
    (by decide!)).symm

end Twitch
